import Mathlib

/-!
Shallow embedding of the stocks-serverless-pipeline ingestion core:
`src/lambdas/ingest_mover/app.py` and `src/scripts/backfill_to_7_days.py`.
Prices and percent changes are modelled as rationals; dates as strings
(ISO `YYYY-MM-DD`) for the handler and as integer day numbers for the
windowed trading-date resolver.
-/

namespace StocksPipeline

/-- Watchlist, fixed order, `src/lambdas/ingest_mover/app.py:13` and
`src/scripts/backfill_to_7_days.py:16`. -/
def WATCHLIST : List String := ["AAPL", "MSFT", "GOOGL", "AMZN", "TSLA", "NVDA"]

/-- Executable floor of a rational: `num / den` with Euclidean division, which
agrees with the mathematical floor because the denominator is positive. -/
def ratFloor (q : ℚ) : ℤ := q.num / q.den

/-- Round half away from zero to the nearest integer: the tie behaviour of
`decimal.ROUND_HALF_UP`. -/
def rndHalfAway (y : ℚ) : ℤ :=
  if 0 ≤ y then ratFloor (y + 1 / 2) else -ratFloor (-y + 1 / 2)

/-- Model of `_to_ddb_number(x, places)` (`ingest_mover/app.py:46-48`,
`backfill_to_7_days.py:42-44`): quantize to `places` decimal digits with
`ROUND_HALF_UP`. -/
def toDdbNumber (places : ℕ) (x : ℚ) : ℚ :=
  (rndHalfAway (x * 10 ^ places) : ℚ) / 10 ^ places

/-- Round half to even to the nearest integer: the tie behaviour of Python
built-in `round`. -/
def rndHalfEven (y : ℚ) : ℤ :=
  if y - ratFloor y < 1 / 2 then ratFloor y
  else if 1 / 2 < y - ratFloor y then ratFloor y + 1
  else if ratFloor y % 2 = 0 then ratFloor y else ratFloor y + 1

/-- Python `round(x, places)`. -/
def pyRound (places : ℕ) (x : ℚ) : ℚ :=
  (rndHalfEven (x * 10 ^ places) : ℚ) / 10 ^ places

/-- Model of `_percent_change(open_price, close_price)` (`ingest_mover/app.py:141-144`):
guard against a zero open price, else `((close - open) / open) * 100`. -/
def percentChange (openPrice closePrice : ℚ) : Except String ℚ :=
  if openPrice = 0 then .error "Open price is 0; cannot compute percent change"
  else .ok ((closePrice - openPrice) / openPrice * 100)

/-- A per-symbol mover candidate: entries of `successes`
(`ingest_mover/app.py:198-221`) and of `moves` (`backfill_to_7_days.py:257`). -/
structure Cand where
  ticker : String
  pct : ℚ
  close : ℚ
deriving DecidableEq

/-- One step of the top-mover loop (`ingest_mover/app.py:230-232`): replace the
current best only on strictly greater absolute percent change. -/
def stepTop (top : Option Cand) (c : Cand) : Option Cand :=
  match top with
  | none => some c
  | some t => if |c.pct| > |t.pct| then some c else some t

/-- The top-mover selection loop of the lambda handler
(`ingest_mover/app.py:229-232`): fold `stepTop` over the candidates starting
from `None`. -/
def selectTop (l : List Cand) : Option Cand :=
  l.foldl stepTop none

/-- Fold of Python `max` over a nonempty tail with key `abs(percentChange)`:
`max` keeps the current best and replaces it only when the key is strictly
greater. -/
def runTop (t : Cand) (l : List Cand) : Cand :=
  l.foldl (fun b c => if |c.pct| > |b.pct| then c else b) t

/-- Model of `max(moves, key=lambda x: abs(x[1]))` (`backfill_to_7_days.py:259`);
`none` models the `ValueError` Python `max` raises on an empty sequence. -/
def pyMaxAbs (l : List Cand) : Option Cand :=
  match l with
  | [] => none
  | x :: xs => some (runTop x xs)

/-! ### Retrying fetchers -/

/-- Result of one HTTP attempt, as the fetchers observe it: a parsed JSON
document (opaque id), an HTTP error status with body, or a non-HTTP transport
error (timeout, connection failure, malformed JSON). -/
inductive AttemptOutcome where
  | success (v : ℕ)
  | httpError (status : ℕ) (body : String)
  | otherError (msg : String)
deriving DecidableEq

/-- Retry configuration of `_fetch_json_with_retries`
(`ingest_mover/app.py:76-79`). -/
structure RetryCfg where
  maxAttempts : ℕ
  base429 : ℚ
  base5xx : ℚ
  maxBackoff : ℚ
deriving DecidableEq

/-- The environment-variable defaults `MAX_ATTEMPTS=4`,
`BASE_429_BACKOFF_SECONDS=2`, `BASE_5XX_BACKOFF_SECONDS=0.5`,
`MAX_BACKOFF_SECONDS=10`. -/
def defaultCfg : RetryCfg :=
  { maxAttempts := 4, base429 := 2, base5xx := 1 / 2, maxBackoff := 10 }

/-- The 429 sleep ceiling `min(max_backoff, base_429 * (2 ** (attempt - 1)))`
(`ingest_mover/app.py:99`). -/
def backoff429 (cfg : RetryCfg) (attempt : ℕ) : ℚ :=
  min cfg.maxBackoff (cfg.base429 * 2 ^ (attempt - 1))

/-- The 5xx sleep ceiling `min(max_backoff, base_5xx * (2 ** (attempt - 1)))`
(`ingest_mover/app.py:105,114`). -/
def backoff5xx (cfg : RetryCfg) (attempt : ℕ) : ℚ :=
  min cfg.maxBackoff (cfg.base5xx * 2 ^ (attempt - 1))

/-- Attempt loop of `_fetch_json_with_retries` (`ingest_mover/app.py:83-119`),
indexed by the current attempt number with fuel for the remaining range.
Returns the outcome together with the list of sleep ceilings consumed before
each retry (jitter excluded). An `HTTPError` is retried only for 429 and for
500/502/503/504; any other status raises at once. A non-HTTP exception is
retried under the 5xx schedule while attempts remain. -/
def fetchWithRetriesAux (cfg : RetryCfg) (out : ℕ → AttemptOutcome) :
    ℕ → ℕ → Except String ℕ × List ℚ
  | _, 0 => (.error "Unknown error fetching Massive JSON", [])
  | attempt, fuel + 1 =>
    match out attempt with
    | .success v => (.ok v, [])
    | .httpError status body =>
      if status = 429 ∧ attempt < cfg.maxAttempts then
        let r := fetchWithRetriesAux cfg out (attempt + 1) fuel
        (r.1, backoff429 cfg attempt :: r.2)
      else if (status = 500 ∨ status = 502 ∨ status = 503 ∨ status = 504) ∧
          attempt < cfg.maxAttempts then
        let r := fetchWithRetriesAux cfg out (attempt + 1) fuel
        (r.1, backoff5xx cfg attempt :: r.2)
      else
        (.error ("HTTPError " ++ toString status ++ " from Massive. Body=" ++ body), [])
    | .otherError msg =>
      if attempt < cfg.maxAttempts then
        let r := fetchWithRetriesAux cfg out (attempt + 1) fuel
        (r.1, backoff5xx cfg attempt :: r.2)
      else (.error msg, [])

/-- Model of `_fetch_json_with_retries(url)` (`ingest_mover/app.py:75-119`): run the
attempt loop from attempt 1. -/
def fetchWithRetries (cfg : RetryCfg) (out : ℕ → AttemptOutcome) :
    Except String ℕ × List ℚ :=
  fetchWithRetriesAux cfg out 1 cfg.maxAttempts

/-- Backfill sleep ceiling `min(max_backoff, 2 ** (attempt - 1))`
(`backfill_to_7_days.py:98,107`). -/
def backoffBackfill (maxBackoff : ℚ) (attempt : ℕ) : ℚ :=
  min maxBackoff (2 ^ (attempt - 1))

/-- Attempt loop of `_get_json` (`backfill_to_7_days.py:80-111`). A non-200
status raises a `RuntimeError` that the generic handler catches, so every
non-success outcome is retried while attempts remain; after exhaustion the
last cause is wrapped in `Request failed after retries`. -/
def getJsonAux (maxAttempts : ℕ) (maxBackoff : ℚ) (out : ℕ → AttemptOutcome) :
    ℕ → ℕ → Except String ℕ × List ℚ
  | _, 0 => (.error "Request failed after retries: None", [])
  | attempt, fuel + 1 =>
    match out attempt with
    | .success v => (.ok v, [])
    | .httpError status body =>
      if (status = 429 ∨ status = 500 ∨ status = 502 ∨ status = 503 ∨ status = 504) ∧
          attempt < maxAttempts then
        let r := getJsonAux maxAttempts maxBackoff out (attempt + 1) fuel
        (r.1, backoffBackfill maxBackoff attempt :: r.2)
      else if attempt < maxAttempts then
        let r := getJsonAux maxAttempts maxBackoff out (attempt + 1) fuel
        (r.1, backoffBackfill maxBackoff attempt :: r.2)
      else
        (.error ("Request failed after retries: HTTP " ++ toString status ++ ": " ++ body), [])
    | .otherError msg =>
      if attempt < maxAttempts then
        let r := getJsonAux maxAttempts maxBackoff out (attempt + 1) fuel
        (r.1, backoffBackfill maxBackoff attempt :: r.2)
      else (.error ("Request failed after retries: " ++ msg), [])

/-- Model of `_get_json(http, url, max_attempts, max_backoff)`
(`backfill_to_7_days.py:80-111`): run the attempt loop from attempt 1. -/
def getJson (maxAttempts : ℕ) (maxBackoff : ℚ) (out : ℕ → AttemptOutcome) :
    Except String ℕ × List ℚ :=
  getJsonAux maxAttempts maxBackoff out 1 maxAttempts

/-! ### Ingest handler and backfill writer -/

/-- A daily bar as extracted by `_fetch_prev_day_open_close`
(`ingest_mover/app.py:122-138`) and `fetch_day` (`backfill_to_7_days.py:147-172`):
the date resolved from the bar's UTC timestamp, open and close prices. -/
structure Bar where
  date : String
  o : ℚ
  c : ℚ
deriving DecidableEq

/-- Outcome of one symbol's whole fetch, retries included: a bar, or the
exception text of the failed fetch / empty-results check. -/
inductive FetchOutcome where
  | ok (bar : Bar)
  | err (msg : String)
deriving DecidableEq

/-- Persisted MoverRecord item shape (`ingest_mover/app.py:237-244`,
`backfill_to_7_days.py:181-188`). -/
structure Item where
  pk : String
  sk : String
  date : String
  ticker : String
  pct : ℚ
  close : ℚ
deriving DecidableEq

/-- The MoverRecord the handler builds (`ingest_mover/app.py:237-244`):
`_to_ddb_number` with the default 6 places for both numeric fields. -/
def mkLambdaItem (tradingDate : String) (top : Cand) : Item :=
  { pk := "MOVERS", sk := tradingDate, date := tradingDate, ticker := top.ticker,
    pct := toDdbNumber 6 top.pct, close := toDdbNumber 6 top.close }

/-- The MoverRecord `put_winner` builds (`backfill_to_7_days.py:180-192`):
percent change quantized at 6 places, closing price at 2 places. -/
def putWinnerItem (dateStr ticker : String) (pct close : ℚ) : Item :=
  { pk := "MOVERS", sk := dateStr, date := dateStr, ticker := ticker,
    pct := toDdbNumber 6 pct, close := toDdbNumber 2 close }

/-- Outcome of the conditional `put_item` (`ingest_mover/app.py:247-256`):
success, `ConditionalCheckFailedException`, or another client error. -/
inductive PutOutcome where
  | ok
  | conflict
  | clientErr (msg : String)
deriving DecidableEq

/-- External world of one handler run: the oracle symbol's fetch outcome, the
remaining symbols' fetch outcomes, and the store contents at `get_item` time. -/
structure HandlerEnv where
  oracle : FetchOutcome
  rest : String → FetchOutcome
  existing : String → Option Item

/-- The JSON body the handler returns with `statusCode` 200. -/
structure Payload where
  statusCode : ℕ
  stored : Bool
  cached : Bool
  item : Item
  successCount : ℕ
  failureCount : ℕ
  failures : List (String × String)
deriving DecidableEq

/-- Observable result of a normal handler return: the payload, the record
actually inserted into the store (if any), and the symbols fetched upstream. -/
structure HandlerResult where
  payload : Payload
  written : Option Item
  fetched : List String
deriving DecidableEq

/-- Loop body for a non-oracle ticker (`ingest_mover/app.py:206-224`): fetch
outcome, date check against the oracle's trading date, percent change; any
exception becomes a failure entry for that ticker. -/
def processTicker (tradingDate t : String) (fo : FetchOutcome) :
    Except (String × String) Cand :=
  match fo with
  | .err m => .error (t, m)
  | .ok b =>
    if b.date ≠ tradingDate then
      .error (t, "Date mismatch: expected " ++ tradingDate ++ ", got " ++ b.date)
    else
      match percentChange b.o b.c with
      | .error m => .error (t, m)
      | .ok pct => .ok { ticker := t, pct := pyRound 6 pct, close := pyRound 6 b.c }

/-- Per-symbol results of the loop over `WATCHLIST[1:]`
(`ingest_mover/app.py:206-224`). -/
def restResults (env : HandlerEnv) (tradingDate : String) :
    List (Except (String × String) Cand) :=
  (WATCHLIST.drop 1).map (fun t => processTicker tradingDate t (env.rest t))

/-- The `successes` list entries contributed by the loop. -/
def restSuccs (env : HandlerEnv) (tradingDate : String) : List Cand :=
  (restResults env tradingDate).filterMap Except.toOption

/-- The `failures` list collected by the loop. -/
def restFails (env : HandlerEnv) (tradingDate : String) : List (String × String) :=
  (restResults env tradingDate).filterMap
    (fun r => match r with | .error f => some f | .ok _ => none)

/-- Aggregation outcome before the conditional write: an already-stored record
found by the existence check, or a freshly computed MoverRecord with the
success count. -/
inductive Stage1Result where
  | cachedHit (ex : Item)
  | computed (item : Item) (nSucc : ℕ)
deriving DecidableEq

/-- Steps 1-2 of the handler (`ingest_mover/app.py:158-244`): oracle fetch,
existence short-circuit, all-or-nothing aggregation over the remaining 5
symbols, and top-mover selection — everything before the conditional write. -/
def stage1 (env : HandlerEnv) : Except String Stage1Result :=
  match env.oracle with
  | .err m => .error m
  | .ok b0 =>
    match env.existing b0.date with
    | some ex => .ok (.cachedHit ex)
    | none =>
      match percentChange b0.o b0.c with
      | .error m => .error m
      | .ok pct0 =>
        let c0 : Cand := { ticker := "AAPL", pct := pyRound 6 pct0, close := pyRound 6 b0.c }
        if restFails env b0.date ≠ [] then
          .error "One or more tickers failed; refusing to store."
        else
          match selectTop (c0 :: restSuccs env b0.date) with
          | none => .error "Unexpected: no top mover computed"
          | some top =>
            .ok (.computed (mkLambdaItem b0.date top) (c0 :: restSuccs env b0.date).length)

/-- Cached-path response body (`ingest_mover/app.py:168-190`). -/
def cachedPayload (ex : Item) : Payload :=
  { statusCode := 200, stored := false, cached := true, item := ex,
    successCount := 0, failureCount := 0, failures := [] }

/-- Stored/conflict response body (`ingest_mover/app.py:258-274`). -/
def writePayload (stored : Bool) (item : Item) (n : ℕ) : Payload :=
  { statusCode := 200, stored := stored, cached := false, item := item,
    successCount := n, failureCount := 0, failures := [] }

/-- Model of `handler(event, context)` (`ingest_mover/app.py:147-274`) as a function of
the fetch outcomes, the store state at `get_item` time, and the conditional
write outcome. `written` records the item actually inserted; `fetched` lists
the symbols for which an upstream fetch sequence was issued. -/
def handlerModel (env : HandlerEnv) (put : PutOutcome) : Except String HandlerResult :=
  match stage1 env with
  | .error m => .error m
  | .ok (.cachedHit ex) =>
    .ok { payload := cachedPayload ex, written := none, fetched := ["AAPL"] }
  | .ok (.computed item n) =>
    match put with
    | .clientErr m => .error m
    | .ok =>
      .ok { payload := writePayload true item n, written := some item, fetched := WATCHLIST }
    | .conflict =>
      .ok { payload := writePayload false item n, written := none, fetched := WATCHLIST }

/-- The per-symbol loop of one backfill date (`backfill_to_7_days.py:237-257`):
the first failure — fetch error, date mismatch, or zero open — aborts the run. -/
def collectMoves (fetch : String → FetchOutcome) (d : String) :
    List String → Except String (List Cand)
  | [] => .ok []
  | t :: ts =>
    match fetch t with
    | .err m => .error m
    | .ok b =>
      if b.date ≠ d then
        .error ("Date mismatch: asked " ++ d ++ " got " ++ b.date ++ " for " ++ t)
      else if b.o = 0 then
        .error ("Open price is 0 for " ++ t ++ " on " ++ d ++ "; cannot compute percent change")
      else
        match collectMoves fetch d ts with
        | .error m => .error m
        | .ok rest => .ok ({ ticker := t, pct := (b.c - b.o) / b.o * 100, close := b.c } :: rest)

/-- One iteration of the backfill date loop (`backfill_to_7_days.py:232-261`):
skip the date if it already exists, else fetch all 6 symbols and write the
winner. Returns the item written for the date, `none` when skipped. -/
def backfillProcessDate (fetch : String → FetchOutcome) (d : String)
    (existsAlready : Bool) : Except String (Option Item) :=
  if existsAlready then .ok none
  else
    match collectMoves fetch d WATCHLIST with
    | .error m => .error m
    | .ok moves =>
      match pyMaxAbs moves with
      | none => .error "max() arg is an empty sequence"
      | some w => .ok (some (putWinnerItem d w.ticker w.pct w.close))

/-- The record a handler run inserts into the store: `none` on error exits, on
the cached path, and on the conflict path. -/
def writtenOf (r : Except String HandlerResult) : Option Item :=
  match r with
  | .ok hr => hr.written
  | .error _ => none

/-- The record one backfill date iteration inserts. -/
def backfillWrittenOf (r : Except String (Option Item)) : Option Item :=
  match r with
  | .ok o => o
  | .error _ => none

/-- A symbol outcome that is fatal for the batch: failed fetch, resolved date
differing from the target date, or a zero open price. -/
def badOutcome (fo : FetchOutcome) (tradingDate : String) : Prop :=
  (∃ m, fo = .err m) ∨ ∃ b, fo = .ok b ∧ (b.date ≠ tradingDate ∨ b.o = 0)

/-! ### Windowed trading-date resolver -/

/-- Model of `_date_str_from_epoch_ms` (`backfill_to_7_days.py:75-77`) collapsed to the
UTC day number: floor division of the epoch milliseconds by the milliseconds
in a day. Dates are modelled as day numbers; ISO strings compare the same way. -/
def dateOfEpochMs (ms : ℤ) : ℤ := Int.fdiv ms 86400000

/-- Start of the ranged query issued by `discover_last_trading_dates`
(`backfill_to_7_days.py:124-125`): 25 calendar days before the end date. -/
def discoverStart (endDate : ℤ) : ℤ := endDate - 25

/-- Python `sorted(set(xs))`: ascending sort of the distinct elements
(`backfill_to_7_days.py:139`). -/
def sortedSet (l : List ℤ) : List ℤ := List.insertionSort (· ≤ ·) l.dedup

/-- Python `lst[-n:]` (`backfill_to_7_days.py:144`): the last `n` entries,
except that `n = 0` yields the whole list. -/
def takeLast (n : ℕ) (l : List ℤ) : List ℤ :=
  if n = 0 then l else l.drop (l.length - n)

/-- The deduplicated, sorted bar dates at most the end date
(`backfill_to_7_days.py:139-140`). -/
def qualifyingDates (barTimes : List ℤ) (endDate : ℤ) : List ℤ :=
  (sortedSet (barTimes.map dateOfEpochMs)).filter (fun d => d ≤ endDate)

/-- Model of `discover_last_trading_dates` (`backfill_to_7_days.py:114-144`) after the
ranged fetch returned bars with timestamps `barTimes`: fail on an empty result
set, map timestamps to dates, deduplicate and sort, keep dates ≤ the end date,
fail when fewer than `n` remain, else return `dates[-n:]`. -/
def discoverDates (barTimes : List ℤ) (endDate : ℤ) (n : ℕ) : Except String (List ℤ) :=
  if barTimes = [] then
    .error "No results returned while discovering trading dates. Check endpoint/API key."
  else
    let dates := qualifyingDates barTimes endDate
    if dates.length < n then
      .error "Only found fewer trading dates than requested. Widen the window."
    else .ok (takeLast n dates)

/-! ### Concrete environments for witnesses -/

/-- A bar for 2024-01-02 with open 1 and close 2. -/
def demoBar : Bar := { date := "2024-01-02", o := 1, c := 2 }

/-- A run in which every non-oracle fetch fails. -/
def demoEnvBadRest : HandlerEnv :=
  { oracle := .ok demoBar, rest := fun _ => .err "boom", existing := fun _ => none }

/-- A run in which all 6 fetches agree on the date and open/close 1/2. -/
def demoEnvGood : HandlerEnv :=
  { oracle := .ok demoBar, rest := fun _ => .ok demoBar, existing := fun _ => none }

/-- The record stored for 2024-01-02 in the good run. -/
def demoItem : Item :=
  { pk := "MOVERS", sk := "2024-01-02", date := "2024-01-02", ticker := "AAPL",
    pct := 100, close := 2 }

/-- The good run's result under an uncontended conditional write. -/
def demoGoodResult : HandlerResult :=
  { payload := writePayload true demoItem 6, written := some demoItem, fetched := WATCHLIST }

/-- A run against a store that already holds a record for every date. -/
def demoEnvCached : HandlerEnv :=
  { oracle := .ok demoBar, rest := fun _ => .ok demoBar, existing := fun _ => some demoItem }

/-- Every attempt is rate limited. -/
def all429 : ℕ → AttemptOutcome := fun _ => .httpError 429 "slow down"

/-- Attempt 1 times out, later attempts succeed. -/
def oneTimeout : ℕ → AttemptOutcome :=
  fun k => if k = 1 then .otherError "timed out" else .success 3

/-- Attempt 1 sees an HTTP 404, later attempts would succeed. -/
def oneNotFound : ℕ → AttemptOutcome :=
  fun k => if k = 1 then .httpError 404 "not found" else .success 7

/-- The spec's tie-break example: percent changes +3, -3, +1, +3 in watchlist
order. -/
def demoCands : List Cand :=
  [{ ticker := "AAPL", pct := 3, close := 1 }, { ticker := "MSFT", pct := -3, close := 1 },
    { ticker := "GOOGL", pct := 1, close := 1 }, { ticker := "AMZN", pct := 3, close := 1 }]

/-! ### Theorems -/

theorem ratFloor_eq_floor (q : ℚ) : ratFloor q = ⌊q⌋ := Rat.floor_def.symm

theorem foldl_stepTop_some (l : List Cand) (t : Cand) :
    l.foldl stepTop (some t) = some (runTop t l) := by
  induction l generalizing t with
  | nil => rfl
  | cons x xs ih =>
    simp only [List.foldl_cons, stepTop, runTop]
    split <;> simp [ih, runTop]

theorem selectTop_eq_pyMaxAbs (l : List Cand) : selectTop l = pyMaxAbs l := by
  cases l with
  | nil => rfl
  | cons x xs => simp [selectTop, pyMaxAbs, List.foldl_cons, stepTop, foldl_stepTop_some]

/-- Structure of `runTop`: either the seed survives and bounds every candidate,
or the result is the first candidate strictly beating everything before it
(seed included) and bounding everything after it. -/
theorem runTop_spec (l : List Cand) (t : Cand) :
    (runTop t l = t ∧ ∀ c ∈ l, |c.pct| ≤ |t.pct|) ∨
    (∃ pre c post, l = pre ++ c :: post ∧ runTop t l = c ∧ |t.pct| < |c.pct| ∧
      (∀ d ∈ pre, |d.pct| < |c.pct|) ∧ (∀ d ∈ post, |d.pct| ≤ |c.pct|)) := by
  induction l generalizing t with
  | nil => exact Or.inl ⟨rfl, by simp⟩
  | cons x xs ih =>
    by_cases hx : |x.pct| > |t.pct|
    · have hstep : runTop t (x :: xs) = runTop x xs := by
        simp [runTop, List.foldl_cons, hx]
      rcases ih x with ⟨heq, hbound⟩ | ⟨pre, c, post, hsplit, heq, hgt, hpre, hpost⟩
      · exact Or.inr ⟨[], x, xs, by simp, by rw [hstep, heq], hx, by simp,
          fun d hd => hbound d hd⟩
      · refine Or.inr ⟨x :: pre, c, post, by simp [hsplit], by rw [hstep, heq],
          lt_trans hx hgt, ?_, hpost⟩
        intro d hd
        rcases List.mem_cons.mp hd with rfl | hd
        · exact hgt
        · exact hpre d hd
    · have hstep : runTop t (x :: xs) = runTop t xs := by
        simp [runTop, List.foldl_cons, hx]
      push_neg at hx
      rcases ih t with ⟨heq, hbound⟩ | ⟨pre, c, post, hsplit, heq, hgt, hpre, hpost⟩
      · refine Or.inl ⟨by rw [hstep, heq], ?_⟩
        intro d hd
        rcases List.mem_cons.mp hd with rfl | hd
        · exact hx
        · exact hbound d hd
      · refine Or.inr ⟨x :: pre, c, post, by simp [hsplit], by rw [hstep, heq], hgt, ?_, hpost⟩
        intro d hd
        rcases List.mem_cons.mp hd with rfl | hd
        · exact lt_of_le_of_lt hx hgt
        · exact hpre d hd

/-- Every nonempty candidate list splits around the selected top mover: all
earlier candidates have strictly smaller absolute percent change, all
candidates are bounded by it. -/
theorem selectTop_first_max (l : List Cand) (h : l ≠ []) :
    ∃ pre t post, selectTop l = some t ∧ l = pre ++ t :: post ∧
      (∀ d ∈ pre, |d.pct| < |t.pct|) ∧ (∀ d ∈ l, |d.pct| ≤ |t.pct|) := by
  cases l with
  | nil => exact absurd rfl h
  | cons x xs =>
    have hsel : selectTop (x :: xs) = some (runTop x xs) := by
      simp [selectTop, List.foldl_cons, stepTop, foldl_stepTop_some]
    rcases runTop_spec xs x with ⟨heq, hbound⟩ | ⟨pre, c, post, hsplit, heq, hgt, hpre, hpost⟩
    · refine ⟨[], x, xs, by rw [hsel, heq], by simp, by simp, ?_⟩
      intro d hd
      rcases List.mem_cons.mp hd with rfl | hd
      · exact le_refl _
      · exact hbound d hd
    · refine ⟨x :: pre, c, post, by rw [hsel, heq], by simp [hsplit], ?_, ?_⟩
      · intro d hd
        rcases List.mem_cons.mp hd with rfl | hd
        · exact hgt
        · exact hpre d hd
      · intro d hd
        rw [hsplit] at hd
        rcases List.mem_cons.mp hd with rfl | hd
        · exact le_of_lt hgt
        · rcases List.mem_append.mp hd with hd | hd
          · exact le_of_lt (hpre d hd)
          · rcases List.mem_cons.mp hd with rfl | hd
            · exact le_refl _
            · exact hpost d hd


theorem processTicker_error_of_bad (d t : String) (fo : FetchOutcome)
    (h : badOutcome fo d) : ∃ f, processTicker d t fo = .error f := by
  rcases h with ⟨m, rfl⟩ | ⟨b, rfl, hb⟩
  · exact ⟨(t, m), rfl⟩
  · rcases hb with hd | ho
    · exact ⟨_, by (simp [processTicker, hd]; rfl)⟩
    · by_cases hd : b.date = d
      · exact ⟨_, by (simp [processTicker, hd, percentChange, ho]; rfl)⟩
      · exact ⟨_, by (simp [processTicker, hd]; rfl)⟩

theorem restFails_ne_nil (env : HandlerEnv) (d : String)
    (h : ∃ t ∈ WATCHLIST.drop 1, badOutcome (env.rest t) d) :
    restFails env d ≠ [] := by
  rcases h with ⟨t, ht, hbad⟩
  rcases processTicker_error_of_bad d t (env.rest t) hbad with ⟨f, hf⟩
  intro hnil
  rw [restFails, List.filterMap_eq_nil_iff] at hnil
  have hmem : processTicker d t (env.rest t) ∈ restResults env d := by
    rw [restResults]
    exact List.mem_map.mpr ⟨t, ht, rfl⟩
  have := hnil _ hmem
  rw [hf] at this
  simp at this

theorem collectMoves_error_of_bad (fetch : String → FetchOutcome) (d : String)
    (l : List String) (h : ∃ t ∈ l, badOutcome (fetch t) d) :
    ∃ m, collectMoves fetch d l = .error m := by
  induction l with
  | nil =>
    rcases h with ⟨t, ht, _⟩
    exact absurd ht (List.not_mem_nil t)
  | cons x xs ih =>
    rcases h with ⟨t, ht, hbad⟩
    rcases List.mem_cons.mp ht with rfl | htx
    · rcases hbad with ⟨m, hm⟩ | ⟨b, hb, hcond⟩
      · exact ⟨m, by simp [collectMoves, hm]⟩
      · rcases hcond with hd | ho
        · exact ⟨_, by (simp [collectMoves, hb, hd]; rfl)⟩
        · by_cases hd : b.date = d
          · exact ⟨_, by (simp [collectMoves, hb, hd, ho]; rfl)⟩
          · exact ⟨_, by (simp [collectMoves, hb, hd]; rfl)⟩
    · rcases ih ⟨t, htx, hbad⟩ with ⟨m, hm⟩
      cases hfx : fetch x with
      | err m' => exact ⟨m', by simp [collectMoves, hfx]⟩
      | ok b =>
        by_cases hd : b.date = d
        · by_cases ho : b.o = 0
          · exact ⟨_, by (simp [collectMoves, hfx, hd, ho]; rfl)⟩
          · exact ⟨m, by simp [collectMoves, hfx, hd, ho, hm]⟩
        · exact ⟨_, by (simp [collectMoves, hfx, hd]; rfl)⟩

/-- C5: for the retrying fetcher at its default configuration (maxAttempts=4,
base429BackoffSeconds=2, maxBackoffSeconds=10), the sleep ceiling before the
retry after a 429 on attempt k (k = 1..3) is `min 10 (2 * 2 ^ (k - 1))`; the
per-attempt ceiling sequence over attempts 1..4 is [2, 4, 8, 10]; and no
computed backoff ever exceeds maxBackoffSeconds. -/
theorem backoff429_ceiling_spec :
    (∀ (out : ℕ → AttemptOutcome) (body : String) (k fuel : ℕ),
        out k = .httpError 429 body → k < 4 →
        (fetchWithRetriesAux defaultCfg out k (fuel + 1)).2.head? =
          some (min 10 (2 * 2 ^ (k - 1)))) ∧
    (List.range 4).map (fun i => backoff429 defaultCfg (i + 1)) = [2, 4, 8, 10] ∧
    ∀ k : ℕ, backoff429 defaultCfg k ≤ 10 ∧ backoff5xx defaultCfg k ≤ 10 := by
  refine ⟨?_, ?_, fun k => ⟨min_le_left _ _, min_le_left _ _⟩⟩
  · intro out body k fuel hout hk
    simp [fetchWithRetriesAux, hout, hk, backoff429, defaultCfg]
  · simp [backoff429, defaultCfg, List.range_succ]
    norm_num [min_def]

/-- Witness for C5: a 429 on attempt 1 sleeps at most `min 10 (2 * 2 ^ 0)`
seconds before the retry. -/
theorem backoff429_ceiling_spec_witness :
    all429 1 = .httpError 429 "slow down" ∧ 1 < 4 ∧
      (fetchWithRetriesAux defaultCfg all429 1 (2 + 1)).2.head? =
        some (min 10 (2 * 2 ^ (1 - 1))) :=
  ⟨rfl, by decide, backoff429_ceiling_spec.1 all429 "slow down" 1 2 rfl (by decide)⟩

/-- Counterexample to C6: the lambda fetcher does not retry an unexpected HTTP
status. A 404 on attempt 1 of 4 fails at once with no backoff sleep, even
though attempt 2 would have succeeded. -/
theorem fetch404_immediate_failure :
    fetchWithRetries defaultCfg oneNotFound =
      (.error "HTTPError 404 from Massive. Body=not found", []) ∧
    1 < defaultCfg.maxAttempts := by
  constructor
  · rfl
  · decide

/-- C6 amended: both fetchers retry non-HTTP transport errors under the 5xx
backoff schedule while attempts remain and attach the underlying cause after
exhausting attempts; the backfill fetcher also retries unexpected HTTP
statuses, but the lambda fetcher fails immediately on any HTTP status outside
{429, 500, 502, 503, 504}, even when attempts remain. -/
theorem fetch_retry_classification :
    (∀ (out : ℕ → AttemptOutcome) (msg : String) (k fuel : ℕ),
        out k = .otherError msg → k < defaultCfg.maxAttempts →
        fetchWithRetriesAux defaultCfg out k (fuel + 1) =
          ((fetchWithRetriesAux defaultCfg out (k + 1) fuel).1,
            backoff5xx defaultCfg k :: (fetchWithRetriesAux defaultCfg out (k + 1) fuel).2)) ∧
    (∀ (out : ℕ → AttemptOutcome) (msg : String) (fuel : ℕ),
        out defaultCfg.maxAttempts = .otherError msg →
        fetchWithRetriesAux defaultCfg out defaultCfg.maxAttempts (fuel + 1) =
          (.error msg, [])) ∧
    (∀ (out : ℕ → AttemptOutcome) (status : ℕ) (body : String) (k fuel : ℕ),
        out k = .httpError status body →
        status ≠ 429 → status ≠ 500 → status ≠ 502 → status ≠ 503 → status ≠ 504 →
        fetchWithRetriesAux defaultCfg out k (fuel + 1) =
          (.error ("HTTPError " ++ toString status ++ " from Massive. Body=" ++ body), [])) ∧
    (∀ (maxA : ℕ) (maxB : ℚ) (out : ℕ → AttemptOutcome) (k fuel : ℕ),
        (∀ v, out k ≠ .success v) → k < maxA →
        getJsonAux maxA maxB out k (fuel + 1) =
          ((getJsonAux maxA maxB out (k + 1) fuel).1,
            backoffBackfill maxB k :: (getJsonAux maxA maxB out (k + 1) fuel).2)) ∧
    (∀ (maxA : ℕ) (maxB : ℚ) (out : ℕ → AttemptOutcome) (msg : String) (fuel : ℕ),
        out maxA = .otherError msg →
        getJsonAux maxA maxB out maxA (fuel + 1) =
          (.error ("Request failed after retries: " ++ msg), [])) ∧
    (∀ (maxA : ℕ) (maxB : ℚ) (out : ℕ → AttemptOutcome) (status : ℕ) (body : String) (fuel : ℕ),
        out maxA = .httpError status body →
        getJsonAux maxA maxB out maxA (fuel + 1) =
          (.error ("Request failed after retries: HTTP " ++ toString status ++ ": " ++ body),
            [])) := by
  refine ⟨?_, ?_, ?_, ?_, ?_, ?_⟩
  · intro out msg k fuel hout hk
    simp [fetchWithRetriesAux, hout, hk]
  · intro out msg fuel hout
    simp [fetchWithRetriesAux, hout]
  · intro out status body k fuel hout h429 h500 h502 h503 h504
    simp [fetchWithRetriesAux, hout, h429, h500, h502, h503, h504]
  · intro maxA maxB out k fuel hns hk
    cases hout : out k with
    | success v => exact absurd hout (hns v)
    | httpError s b =>
      by_cases hs : s = 429 ∨ s = 500 ∨ s = 502 ∨ s = 503 ∨ s = 504
      · simp [getJsonAux, hout, hs, hk]
      · simp [getJsonAux, hout, hs, hk]
    | otherError m => simp [getJsonAux, hout, hk]
  · intro maxA maxB out msg fuel hout
    simp [getJsonAux, hout]
  · intro maxA maxB out status body fuel hout
    simp [getJsonAux, hout]

/-- Witness for C6's amended theorem: a timeout on attempt 1 of 4 is retried
with the 5xx sleep ceiling. -/
theorem fetch_retry_classification_witness :
    oneTimeout 1 = .otherError "timed out" ∧ 1 < defaultCfg.maxAttempts ∧
      fetchWithRetriesAux defaultCfg oneTimeout 1 (3 + 1) =
        ((fetchWithRetriesAux defaultCfg oneTimeout 2 3).1,
          backoff5xx defaultCfg 1 :: (fetchWithRetriesAux defaultCfg oneTimeout 2 3).2) :=
  ⟨rfl, by decide, fetch_retry_classification.1 oneTimeout "timed out" 1 3 rfl (by decide)⟩

/-- C1: if any of the 6 watchlist symbols' outcomes is fatal — failed fetch,
resolved date differing from the target date, or zero open price — neither the
handler nor a backfill date iteration writes a MoverRecord for that date,
regardless of how many other symbols succeeded. -/
theorem all_or_nothing :
    (∀ (env : HandlerEnv) (put : PutOutcome),
        (match env.oracle with
          | .err _ => True
          | .ok b0 => b0.o = 0 ∨ ∃ t ∈ WATCHLIST.drop 1, badOutcome (env.rest t) b0.date) →
        writtenOf (handlerModel env put) = none) ∧
    (∀ (fetch : String → FetchOutcome) (d : String) (ex : Bool),
        (∃ t ∈ WATCHLIST, badOutcome (fetch t) d) →
        backfillWrittenOf (backfillProcessDate fetch d ex) = none) := by
  constructor
  · intro env put hbad
    cases ho : env.oracle with
    | err m => simp [writtenOf, handlerModel, stage1, ho]
    | ok b0 =>
      rw [ho] at hbad
      cases hex : env.existing b0.date with
      | some ex => simp [writtenOf, handlerModel, stage1, ho, hex]
      | none =>
        by_cases h0 : b0.o = 0
        · simp [writtenOf, handlerModel, stage1, ho, hex, percentChange, h0]
        · rcases hbad with hb0 | hrest
          · exact absurd hb0 h0
          · have hf := restFails_ne_nil env b0.date hrest
            simp [writtenOf, handlerModel, stage1, ho, hex, percentChange, h0, hf]
  · intro fetch d ex hbad
    rcases collectMoves_error_of_bad fetch d WATCHLIST hbad with ⟨m, hm⟩
    cases ex
    · simp [backfillWrittenOf, backfillProcessDate, hm]
    · simp [backfillWrittenOf, backfillProcessDate]

/-- Witness for C1: a run whose 5 non-oracle fetches all fail writes nothing,
and a backfill date whose fetches all fail writes nothing. -/
theorem all_or_nothing_witness :
    (demoBar.o = 0 ∨ ∃ t ∈ WATCHLIST.drop 1, badOutcome (demoEnvBadRest.rest t) demoBar.date) ∧
    writtenOf (handlerModel demoEnvBadRest .ok) = none ∧
    (∃ t ∈ WATCHLIST, badOutcome ((fun _ => FetchOutcome.err "boom") t) "2024-01-02") ∧
    backfillWrittenOf
      (backfillProcessDate (fun _ => FetchOutcome.err "boom") "2024-01-02" false) = none := by
  have hbad1 : demoBar.o = 0 ∨
      ∃ t ∈ WATCHLIST.drop 1, badOutcome (demoEnvBadRest.rest t) demoBar.date :=
    Or.inr ⟨"MSFT", by simp [WATCHLIST], Or.inl ⟨"boom", rfl⟩⟩
  have hbad2 : ∃ t ∈ WATCHLIST, badOutcome ((fun _ => FetchOutcome.err "boom") t) "2024-01-02" :=
    ⟨"AAPL", by simp [WATCHLIST], Or.inl ⟨"boom", rfl⟩⟩
  exact ⟨hbad1, all_or_nothing.1 demoEnvBadRest .ok hbad1, hbad2,
    all_or_nothing.2 (fun _ => FetchOutcome.err "boom") "2024-01-02" false hbad2⟩

/-- C2: when the conditional write loses the race, the run that would have
stored an item under an uncontended write instead completes normally with
stored:false, cached:false and inserts nothing, leaving the store untouched. -/
theorem conflict_is_normal_outcome (env : HandlerEnv) (r : HandlerResult)
    (hok : handlerModel env .ok = .ok r) (hstored : r.payload.stored = true) :
    ∃ r', handlerModel env .conflict = .ok r' ∧ r'.payload.statusCode = 200 ∧
      r'.payload.stored = false ∧ r'.payload.cached = false ∧ r'.written = none ∧
      r'.payload.item = r.payload.item := by
  cases hs : stage1 env with
  | error m =>
    rw [handlerModel, hs] at hok
    exact Except.noConfusion hok
  | ok s =>
    cases s with
    | cachedHit ex =>
      rw [handlerModel, hs] at hok
      injection hok with h
      rw [← h] at hstored
      simp [cachedPayload] at hstored
    | computed item n =>
      rw [handlerModel, hs] at hok
      injection hok with h
      refine ⟨{ payload := writePayload false item n, written := none, fetched := WATCHLIST },
        ?_, rfl, rfl, rfl, rfl, ?_⟩
      · rw [handlerModel, hs]
      · rw [← h]
        rfl

theorem stage1_demoEnvGood : stage1 demoEnvGood = .ok (.computed demoItem 6) := by
  have h100 : pyRound 6 ((2 - 1) * 100) = 100 := by
    simp only [pyRound, rndHalfEven, ratFloor_eq_floor]
    norm_num
  have h2 : pyRound 6 (2 : ℚ) = 2 := by
    simp only [pyRound, rndHalfEven, ratFloor_eq_floor]
    norm_num
  have hd100 : toDdbNumber 6 (100 : ℚ) = 100 := by
    simp only [toDdbNumber, rndHalfAway, ratFloor_eq_floor]
    norm_num
  have hd2 : toDdbNumber 6 (2 : ℚ) = 2 := by
    simp only [toDdbNumber, rndHalfAway, ratFloor_eq_floor]
    norm_num
  simp [stage1, demoEnvGood, demoBar, percentChange, restFails, restSuccs, restResults,
    processTicker, WATCHLIST, h100, h2, selectTop, stepTop, mkLambdaItem, demoItem, hd100, hd2]
  simp [List.filterMap_cons, Except.toOption, List.foldl_cons, List.foldl_nil, stepTop,
    hd100, hd2]

/-- Witness for C2: the all-good run stores under an uncontended write and
reports the idempotent outcome under a contended one. -/
theorem conflict_is_normal_outcome_witness :
    handlerModel demoEnvGood .ok = .ok demoGoodResult ∧
    demoGoodResult.payload.stored = true ∧
    ∃ r', handlerModel demoEnvGood .conflict = .ok r' ∧ r'.payload.statusCode = 200 ∧
      r'.payload.stored = false ∧ r'.payload.cached = false ∧ r'.written = none ∧
      r'.payload.item = demoGoodResult.payload.item := by
  have hok : handlerModel demoEnvGood .ok = .ok demoGoodResult := by
    rw [handlerModel, stage1_demoEnvGood]
    rfl
  exact ⟨hok, rfl, conflict_is_normal_outcome demoEnvGood demoGoodResult hok rfl⟩

/-- C3: when the resolved trading date already has a stored record, the
handler returns cached:true and the only upstream fetch issued is the oracle
symbol's. -/
theorem cached_short_circuit (env : HandlerEnv) (b0 : Bar) (ex : Item)
    (put : PutOutcome) (ho : env.oracle = .ok b0) (hex : env.existing b0.date = some ex) :
    handlerModel env put =
      .ok { payload := cachedPayload ex, written := none, fetched := ["AAPL"] } ∧
    (cachedPayload ex).cached = true ∧ (["AAPL"] : List String).length = 1 := by
  refine ⟨?_, rfl, rfl⟩
  simp [handlerModel, stage1, ho, hex]

/-- Witness for C3: a second run over an already-recorded date. -/
theorem cached_short_circuit_witness :
    demoEnvCached.oracle = .ok demoBar ∧
    demoEnvCached.existing demoBar.date = some demoItem ∧
    (handlerModel demoEnvCached .ok =
        .ok { payload := cachedPayload demoItem, written := none, fetched := ["AAPL"] } ∧
      (cachedPayload demoItem).cached = true ∧ (["AAPL"] : List String).length = 1) :=
  ⟨rfl, rfl, cached_short_circuit demoEnvCached demoBar demoItem .ok rfl rfl⟩

/-- C8: both writers round percentChange to 6 decimal places before
persisting; the backfill writer rounds closingPrice to 2 places and the
primary handler to 6 places. -/
theorem rounding_policy :
    (∀ (d : String) (top : Cand),
        (mkLambdaItem d top).pct = toDdbNumber 6 top.pct ∧
        (mkLambdaItem d top).close = toDdbNumber 6 top.close) ∧
    (∀ (d t : String) (pct close : ℚ),
        (putWinnerItem d t pct close).pct = toDdbNumber 6 pct ∧
        (putWinnerItem d t pct close).close = toDdbNumber 2 close) :=
  ⟨fun _ _ => ⟨rfl, rfl⟩, fun _ _ _ _ => ⟨rfl, rfl⟩⟩

/-- C9: percent change is ((close - open) / open) * 100 for a non-zero open
price; a zero open price raises before any division, and a zero open anywhere
in the backfill watchlist loop makes the batch fatal. -/
theorem percent_change_guard :
    (∀ o c : ℚ, o ≠ 0 → percentChange o c = .ok ((c - o) / o * 100)) ∧
    (∀ c : ℚ, percentChange 0 c = .error "Open price is 0; cannot compute percent change") ∧
    (∀ (fetch : String → FetchOutcome) (d : String),
        (∃ t ∈ WATCHLIST, ∃ b, fetch t = .ok b ∧ b.date = d ∧ b.o = 0) →
        ∃ m, collectMoves fetch d WATCHLIST = .error m) := by
  refine ⟨?_, fun c => by simp [percentChange], ?_⟩
  · intro o c h
    simp [percentChange, h]
  · rintro fetch d ⟨t, ht, b, hb, hd, ho⟩
    exact collectMoves_error_of_bad fetch d WATCHLIST
      ⟨t, ht, Or.inr ⟨b, hb, Or.inr ho⟩⟩

/-- Witness for C9: a concrete division and a concrete guard trip. -/
theorem percent_change_guard_witness :
    (2 : ℚ) ≠ 0 ∧ percentChange 2 3 = .ok ((3 - 2) / 2 * 100) ∧
    percentChange 0 3 = .error "Open price is 0; cannot compute percent change" ∧
    (∃ t ∈ WATCHLIST, ∃ b, (fun _ => FetchOutcome.ok { date := "2024-01-02", o := 0, c := 3 }) t =
        FetchOutcome.ok b ∧ b.date = "2024-01-02" ∧ b.o = 0) ∧
    ∃ m, collectMoves (fun _ => FetchOutcome.ok { date := "2024-01-02", o := 0, c := 3 })
      "2024-01-02" WATCHLIST = .error m := by
  have hz : ∃ t ∈ WATCHLIST, ∃ b,
      (fun _ => FetchOutcome.ok { date := "2024-01-02", o := 0, c := 3 }) t =
        FetchOutcome.ok b ∧ b.date = "2024-01-02" ∧ b.o = (0 : ℚ) :=
    ⟨"AAPL", by simp [WATCHLIST], { date := "2024-01-02", o := 0, c := 3 }, rfl, rfl, rfl⟩
  exact ⟨by norm_num, percent_change_guard.1 2 3 (by norm_num), percent_change_guard.2.1 3,
    hz, percent_change_guard.2.2 _ _ hz⟩

/-- C10: every payload the handler returns normally — cached, stored, or
conflict path — has statusCode 200, failureCount 0 and an empty failures
list. -/
theorem success_payload_no_failures (env : HandlerEnv) (put : PutOutcome)
    (r : HandlerResult) (h : handlerModel env put = .ok r) :
    r.payload.statusCode = 200 ∧ r.payload.failureCount = 0 ∧ r.payload.failures = [] := by
  cases hs : stage1 env with
  | error m =>
    rw [handlerModel, hs] at h
    exact Except.noConfusion h
  | ok s =>
    cases s with
    | cachedHit ex =>
      rw [handlerModel, hs] at h
      injection h with h
      rw [← h]
      exact ⟨rfl, rfl, rfl⟩
    | computed item n =>
      cases put with
      | clientErr m =>
        rw [handlerModel, hs] at h
        exact Except.noConfusion h
      | ok =>
        rw [handlerModel, hs] at h
        injection h with h
        rw [← h]
        exact ⟨rfl, rfl, rfl⟩
      | conflict =>
        rw [handlerModel, hs] at h
        injection h with h
        rw [← h]
        exact ⟨rfl, rfl, rfl⟩

/-- Witness for C10: the cached-path payload of a concrete run. -/
theorem success_payload_no_failures_witness :
    handlerModel demoEnvCached .ok =
      .ok { payload := cachedPayload demoItem, written := none, fetched := ["AAPL"] } ∧
    (cachedPayload demoItem).statusCode = 200 ∧ (cachedPayload demoItem).failureCount = 0 ∧
      (cachedPayload demoItem).failures = [] := by
  have h : handlerModel demoEnvCached .ok =
      .ok { payload := cachedPayload demoItem, written := none, fetched := ["AAPL"] } := by
    rfl
  exact ⟨h, success_payload_no_failures demoEnvCached .ok _ h⟩

/-- C4: for every nonempty candidate list the selected top mover has maximal
absolute percent change, every candidate before it in watchlist order has
strictly smaller absolute value (so the first of tied candidates wins), and
the handler's fold agrees with the backfill's Python `max`. -/
theorem top_mover_selection (l : List Cand) (h : l ≠ []) :
    (∃ pre t post, selectTop l = some t ∧ l = pre ++ t :: post ∧
      (∀ d ∈ pre, |d.pct| < |t.pct|) ∧ (∀ d ∈ l, |d.pct| ≤ |t.pct|)) ∧
    selectTop l = pyMaxAbs l :=
  ⟨selectTop_first_max l h, selectTop_eq_pyMaxAbs l⟩

/-- Witness for C4: on percent changes +3, -3, +1, +3 the first symbol
achieving absolute value 3 is selected. -/
theorem top_mover_selection_witness :
    demoCands ≠ [] ∧
    ((∃ pre t post, selectTop demoCands = some t ∧ demoCands = pre ++ t :: post ∧
        (∀ d ∈ pre, |d.pct| < |t.pct|) ∧ (∀ d ∈ demoCands, |d.pct| ≤ |t.pct|)) ∧
      selectTop demoCands = pyMaxAbs demoCands) ∧
    selectTop demoCands = some { ticker := "AAPL", pct := 3, close := 1 } := by
  refine ⟨by simp [demoCands], top_mover_selection demoCands (by simp [demoCands]), ?_⟩
  have h33 : ¬(|(-3 : ℚ)| > |(3 : ℚ)|) := by
    rw [abs_neg]
    exact lt_irrefl _
  have h13 : ¬(|(1 : ℚ)| > |(3 : ℚ)|) := by
    rw [abs_of_pos, abs_of_pos] <;> norm_num
  have h33' : ¬(|(3 : ℚ)| > |(3 : ℚ)|) := lt_irrefl _
  simp [selectTop, demoCands, stepTop, h33, h13, h33']

/-- Counterexample to C7: with count `n = 0` the resolver returns every
qualifying date — Python `dates[-0:]` is the whole list — instead of the most
recent zero dates. -/
theorem discover_n_zero :
    discoverDates [0] 0 0 = .ok [0] ∧ ([0] : List ℤ).length ≠ 0 := by
  constructor
  · rfl
  · decide

/-- C7 amended: the windowed resolver queries a 25-calendar-day lookback
window, fails on an empty result set, deduplicates and sorts the bar dates,
keeps only dates at most the end date, fails when fewer than `n` qualify, and
for `n ≥ 1` returns exactly the most recent `n` qualifying dates in strictly
ascending order (with `n = 0` the whole qualifying list is returned instead). -/
theorem discover_windowed_spec (barTimes : List ℤ) (endDate : ℤ) (n : ℕ) (hn : 1 ≤ n) :
    endDate - discoverStart endDate = 25 ∧
    (barTimes = [] → ∃ m, discoverDates barTimes endDate n = .error m) ∧
    (barTimes ≠ [] → (qualifyingDates barTimes endDate).length < n →
      ∃ m, discoverDates barTimes endDate n = .error m) ∧
    (barTimes ≠ [] → n ≤ (qualifyingDates barTimes endDate).length →
      ∃ res, discoverDates barTimes endDate n = .ok res ∧
        res.length = n ∧ res.Sorted (· < ·) ∧
        (∀ d ∈ res, d ∈ barTimes.map dateOfEpochMs ∧ d ≤ endDate) ∧
        (∀ d, d ∈ barTimes.map dateOfEpochMs → d ≤ endDate → d ∉ res →
          ∀ r ∈ res, d < r)) := by
  refine ⟨by simp [discoverStart], ?_, ?_, ?_⟩
  · intro h
    exact ⟨_, by (simp [discoverDates, h]; rfl)⟩
  · intro hne hlt
    exact ⟨_, by (simp [discoverDates, hne, hlt]; rfl)⟩
  · intro hne hlen
    have hq_le : (qualifyingDates barTimes endDate).Sorted (· ≤ ·) :=
      List.Pairwise.filter _ (List.sorted_insertionSort _ _)
    have hq_nd : (qualifyingDates barTimes endDate).Nodup :=
      List.Nodup.filter _
        ((List.perm_insertionSort _ _).nodup_iff.mpr (List.nodup_dedup _))
    have hq_lt : (qualifyingDates barTimes endDate).Sorted (· < ·) :=
      hq_le.lt_of_le hq_nd
    have hn0 : n ≠ 0 := Nat.one_le_iff_ne_zero.mp hn
    have hout : discoverDates barTimes endDate n =
        .ok ((qualifyingDates barTimes endDate).drop
          ((qualifyingDates barTimes endDate).length - n)) := by
      simp [discoverDates, hne, Nat.not_lt.mpr hlen, takeLast, hn0]
    refine ⟨_, hout, ?_, hq_lt.drop, ?_, ?_⟩
    · rw [List.length_drop, Nat.sub_sub_self hlen]
    · intro d hd
      have hdq : d ∈ qualifyingDates barTimes endDate := List.mem_of_mem_drop hd
      rw [qualifyingDates, List.mem_filter] at hdq
      obtain ⟨hmem, hle⟩ := hdq
      rw [sortedSet, List.mem_insertionSort, List.mem_dedup] at hmem
      exact ⟨hmem, by simpa using hle⟩
    · intro d hmem hle hnotin r hr
      have hdq : d ∈ qualifyingDates barTimes endDate := by
        rw [qualifyingDates, List.mem_filter]
        refine ⟨?_, by simpa using hle⟩
        rw [sortedSet, List.mem_insertionSort, List.mem_dedup]
        exact hmem
      have hsplit : d ∈ (qualifyingDates barTimes endDate).take
            ((qualifyingDates barTimes endDate).length - n) ++
          (qualifyingDates barTimes endDate).drop
            ((qualifyingDates barTimes endDate).length - n) := by
        rw [List.take_append_drop]
        exact hdq
      have hd_take : d ∈ (qualifyingDates barTimes endDate).take
          ((qualifyingDates barTimes endDate).length - n) := by
        rcases List.mem_append.mp hsplit with h | h
        · exact h
        · exact absurd h hnotin
      have hp : List.Pairwise (· < ·)
          ((qualifyingDates barTimes endDate).take
              ((qualifyingDates barTimes endDate).length - n) ++
            (qualifyingDates barTimes endDate).drop
              ((qualifyingDates barTimes endDate).length - n)) := by
        rw [List.take_append_drop]
        exact hq_lt
      exact (List.pairwise_append.mp hp).2.2 d hd_take r hr

/-- Witness for C7's amended theorem: timestamps for days 0 and 1, end date 1,
count 1 yields the single most recent date. -/
theorem discover_windowed_spec_witness :
    (1 : ℕ) ≤ 1 ∧ ([0, 86400000] : List ℤ) ≠ [] ∧
    1 ≤ (qualifyingDates [0, 86400000] 1).length ∧
    ∃ res, discoverDates [0, 86400000] 1 1 = .ok res ∧
      res.length = 1 ∧ res.Sorted (· < ·) ∧
      (∀ d ∈ res, d ∈ ([0, 86400000] : List ℤ).map dateOfEpochMs ∧ d ≤ 1) ∧
      (∀ d, d ∈ ([0, 86400000] : List ℤ).map dateOfEpochMs → d ≤ 1 → d ∉ res →
        ∀ r ∈ res, d < r) :=
  ⟨by decide, by decide, by decide,
    (discover_windowed_spec [0, 86400000] 1 1 (by decide)).2.2.2 (by decide) (by decide)⟩

end StocksPipeline
